import Mathlib

/-!
# member_tracking: ingestion, storage and monthly statistics

A shallow embedding of `main.go`: the poll cycle `getNotifications`, the
upsert loop `storeData` over the `member_tracking` table, and the reshaping
done by `getStats`.

Conventions of the embedding.

* Go `int` / `int64` values are `Int`; no arithmetic is done on them, `COUNT(*)`
  results and loop counters are `Nat`.
* The SQLite table is the list of its rows; `notificationID` is its primary key.
  A `SELECT` without `ORDER BY` returns the rows in list order; SQL leaves that
  order open and no statement below depends on it. Statements are taken to
  succeed (an unreachable database file is an environment fault outside this
  development), so the `continue` branches of `storeData` and the early returns
  of `getStats` on a database error are not taken.
* Library calls whose result the code only inspects (`client.Do`,
  `xml.Decoder.Decode`) appear through their results.
* The iteration order of a Go `map` is not specified by the language, so every
  `range` over a map takes the order in which the keys are visited as an
  argument.
-/

namespace MemberTracking

/-! ## Data model -/

/-- A `time.Time` value as far as the program observes it: the calendar fields
of the wall clock (all stored times are UTC). -/
structure Time where
  year : Nat
  month : Nat
  day : Nat
  hour : Nat
  minute : Nat
  second : Nat
deriving DecidableEq

/-- The zero `time.Time`, `0001-01-01 00:00:00 UTC`; `time.Parse` returns it
together with its error. -/
def Time.zero : Time := ⟨1, 1, 1, 0, 0, 0⟩

/-- The struct `Notifications`: one `row` element of the feed. -/
structure Notifications where
  NotificationID : Int
  TypeID : Int
  SenderID : Int
  SenderName : String
  SentDate : String
  Read : Int
deriving DecidableEq

/-- The struct `InsertData`; also the shape of a row of `member_tracking`
(`notificationID`, `charID`, `charName`, `notificationTypeID`, `eventDate`). -/
structure InsertData where
  CharID : Int
  Date : Time
  NotificationID : Int
  NotificationTypeID : Int
  SenderName : String
deriving DecidableEq

/-- The table `member_tracking`. -/
abbrev Table := List InsertData

/-! ## Text forms of dates -/

/-- The decimal digit character of `n % 10`. -/
def digitChar (n : Nat) : Char :=
  match n % 10 with
  | 0 => '0' | 1 => '1' | 2 => '2' | 3 => '3' | 4 => '4'
  | 5 => '5' | 6 => '6' | 7 => '7' | 8 => '8' | _ => '9'

/-- Two digits, zero padded. -/
def pad2 (n : Nat) : String :=
  String.mk [digitChar (n / 10), digitChar n]

/-- Four digits, zero padded. -/
def pad4 (n : Nat) : String :=
  String.mk [digitChar (n / 1000), digitChar (n / 100), digitChar (n / 10), digitChar n]

/-- SQLite `strftime("%Y-%m", eventDate)`. -/
def strftimeYm (t : Time) : String :=
  pad4 t.year ++ "-" ++ pad2 t.month

/-- SQLite `strftime("%m-%d", eventDate)`. -/
def strftimeMd (t : Time) : String :=
  pad2 t.month ++ "-" ++ pad2 t.day

/-! ## `time.Parse` with the layout `2006-01-02 15:04:05` -/

/-- Go `isDigit` with the digit's value. -/
def digitVal (c : Char) : Option Nat :=
  if '0' ≤ c ∧ c ≤ '9' then some (c.toNat - '0'.toNat) else none

/-- Go `getnum`: a two-digit number, or a single digit when the second
character is no digit and the field is not `fixed`. -/
def getnum (s : List Char) (fixed : Bool) : Option (Nat × List Char) :=
  match s with
  | [] => none
  | c1 :: rest =>
    match digitVal c1 with
    | none => none
    | some a =>
      match rest with
      | [] => if fixed then none else some (a, rest)
      | c2 :: rest2 =>
        match digitVal c2 with
        | some b => some (10 * a + b, rest2)
        | none => if fixed then none else some (a, rest)

/-- The field `2006`: exactly four digits. -/
def getYear (s : List Char) : Option (Nat × List Char) :=
  match s with
  | c1 :: c2 :: c3 :: c4 :: rest =>
    match digitVal c1, digitVal c2, digitVal c3, digitVal c4 with
    | some a, some b, some c, some d => some (1000 * a + 100 * b + 10 * c + d, rest)
    | _, _, _, _ => none
  | _ => none

/-- Go `skip` for a one-character literal other than a space. -/
def skipChar (c : Char) (s : List Char) : Option (List Char) :=
  match s with
  | [] => none
  | d :: rest => if d = c then some rest else none

/-- Go `skip` for the literal space of the layout: a run of spaces in the value
is taken as one. -/
def skipSpace (s : List Char) : Option (List Char) :=
  match s with
  | [] => some []
  | d :: _ => if d = ' ' then some (s.dropWhile (fun x => x == ' ')) else none

/-- After the seconds field a fractional second (`.` or `,` and digits) is
accepted although the layout has none; its value is not kept here, the program
formats and groups times by whole calendar fields only. -/
def skipFraction (s : List Char) : List Char :=
  match s with
  | c :: d :: rest =>
    if (c = '.' ∨ c = ',') ∧ (digitVal d).isSome then rest.dropWhile (fun x => (digitVal x).isSome)
    else s
  | _ => s

/-- Days of a month, Go `daysIn`. -/
def daysIn (month year : Nat) : Nat :=
  if month = 2 then
    (if year % 4 = 0 ∧ (year % 100 ≠ 0 ∨ year % 400 = 0) then 29 else 28)
  else if month = 4 ∨ month = 6 ∨ month = 9 ∨ month = 11 then 30
  else 31

/-- Go `time.Parse("2006-01-02 15:04:05", s)`, as in current Go releases: the
fields are read in turn between the literal separators, each range checked, no
text may remain, and the day must exist in the month; the result is in UTC.
`none` is a parse error (Go then returns the zero time with the error). The
functions of the program take the parser as an argument, so the general
statements below hold for every parser; this one is used where a statement is
evaluated on given text. -/
def timeParse (s : String) : Option Time :=
  (getYear s.data).bind fun (year, v) =>
  (skipChar '-' v).bind fun v =>
  (getnum v true).bind fun (month, v) =>
  if month ≤ 0 ∨ 12 < month then none else
  (skipChar '-' v).bind fun v =>
  (getnum v true).bind fun (day, v) =>
  (skipSpace v).bind fun v =>
  (getnum v false).bind fun (hour, v) =>
  if 24 ≤ hour then none else
  (skipChar ':' v).bind fun v =>
  (getnum v true).bind fun (minute, v) =>
  if 60 ≤ minute then none else
  (skipChar ':' v).bind fun v =>
  (getnum v true).bind fun (second, v) =>
  if 60 ≤ second then none else
  if (skipFraction v).length > 0 then none else
  if day < 1 ∨ day > daysIn month year then none else
  some ⟨year, month, day, hour, minute, second⟩

/-- Strict order of two texts by code point, which is the bytewise (`memcmp`)
order of their UTF-8 forms: the order of SQLite's default `BINARY` collation,
used by `ORDER BY day ASC`. -/
def lexLt : List Char → List Char → Bool
  | [], [] => false
  | [], _ :: _ => true
  | _ :: _, [] => false
  | a :: as, b :: bs => decide (a.toNat < b.toNat) || (decide (a.toNat = b.toNat) && lexLt as bs)

/-- Strict lexical order on day labels. -/
def dayLt (a b : String) : Bool := lexLt a.data b.data

/-! ## Storage: `storeData` -/

/-- One execution of
`INSERT OR REPLACE INTO member_tracking (...) VALUES (?,?,?,?,?)`:
`notificationID` is the primary key, so a row with the same identifier is
deleted before the new row is inserted. The `NOT NULL` constraints cannot fail,
Go passes no null. -/
def insertOrReplace (t : Table) (v : InsertData) : Table :=
  t.filter (fun r => decide (r.NotificationID ≠ v.NotificationID)) ++ [v]

/-- The function `storeData`: the loop over `data.Events`, one
`INSERT OR REPLACE` per event, in order. -/
def storeData (events : List InsertData) (t : Table) : Table :=
  events.foldl insertOrReplace t

/-! ## Ingestion: `getNotifications` -/

/-- Lines written with `log.Printf` by `getNotifications`. -/
inductive LogLine where
  | headerApiError
  | non200 (status : Int)
  | decodeError
  | parseTimeError
deriving DecidableEq

/-- What `client.Do` hands back besides its error: the status code and the
body; the body is seen through `xml.Decoder.Decode`, which fills
`decoded.Notifications` with the rows it read and reports whether it failed. -/
structure Response where
  StatusCode : Int
  decodedRows : List Notifications
  decodeFailed : Bool
deriving DecidableEq

/-- The pair `res, err` returned by `client.Do(req)`; `res = none` is the nil
pointer. -/
structure DoResult where
  res : Option Response
  err : Bool
deriving DecidableEq

/-- How a call of `getNotifications` ends: a run-time panic (which, raised in
the ticker goroutine without a `recover`, ends the process), or a normal return
with the lines logged and the table as left behind. -/
inductive Outcome where
  | panicked
  | returned (log : List LogLine) (table : Table)
deriving DecidableEq

/-- One iteration of the loop over `decoded.Notifications` (lines 140-148): a
row of type 21 or 128 is appended to `ids.Events`; when `time.Parse` fails the
error is logged and the row is appended all the same, with the zero time that
`time.Parse` returned. The state is the log and the events so far. -/
def collectStep (parse : String → Option Time) (acc : List LogLine × List InsertData)
    (v : Notifications) : List LogLine × List InsertData :=
  if v.TypeID = 21 ∨ v.TypeID = 128 then
    let mk (d : Time) : InsertData := ⟨v.SenderID, d, v.NotificationID, v.TypeID, v.SenderName⟩
    match parse v.SentDate with
    | some sentDate => (acc.1, acc.2 ++ [mk sentDate])
    | none => (acc.1 ++ [LogLine.parseTimeError], acc.2 ++ [mk Time.zero])
  else acc

/-- The loop over `decoded.Notifications`, started from an empty `ids.Events`:
the lines it logs and the events it collects. -/
def collectEvents (parse : String → Option Time)
    (rows : List Notifications) : List LogLine × List InsertData :=
  rows.foldl (collectStep parse) ([], [])

/-- Lines 139-151 of `getNotifications`: filter and map the decoded rows, then
`storeData`. -/
def ingest (parse : String → Option Time) (rows : List Notifications) (t : Table) : Table :=
  storeData (collectEvents parse rows).2 t

/-- The function `getNotifications`, from the result of `client.Do` on;
`parse` is `time.Parse` with the layout `2006-01-02 15:04:05`.

* line 118, `defer res.Body.Close()`, evaluates `res.Body` before `err` is
  looked at: with a nil `res` this is a nil dereference, a panic;
* lines 120-123: `err != nil` logs and returns;
* lines 125-128: a status other than 200 logs and returns;
* lines 133-137: a decode error is logged, and execution goes on;
* lines 140-151: the loop over the decoded rows, then `storeData`. -/
def getNotifications (parse : String → Option Time) (r : DoResult) (t : Table) : Outcome :=
  match r.res with
  | none => Outcome.panicked
  | some res =>
    if r.err then Outcome.returned [LogLine.headerApiError] t
    else if res.StatusCode ≠ 200 then Outcome.returned [LogLine.non200 res.StatusCode] t
    else
      let log := if res.decodeFailed then [LogLine.decodeError] else []
      let collected := collectEvents parse res.decodedRows
      Outcome.returned (log ++ collected.1) (storeData collected.2 t)

/-! ## Statistics: `getStats` -/

/-- One row of the grouped query: `day`, `notificationTypeID`, `count`. -/
structure DayRow where
  day : String
  notificationTypeID : Int
  count : Nat
deriving DecidableEq

/-- Rows selected by `WHERE strftime("%Y-%m", eventDate) = ?`, in table order. -/
def monthRows (q : String) (t : Table) : Table :=
  t.filter (fun r => decide (strftimeYm r.Date = q))

/-- Order of the groups of `GROUP BY day, notificationTypeID ORDER BY day ASC`:
ascending day; groups of one day come in the order of the grouping key, the
lower type (21) first. -/
def groupLe (a b : String × Int) : Bool :=
  dayLt a.1 b.1 || (decide (a.1 = b.1) && decide (a.2 ≤ b.2))

/-- The second query of `getStats` (lines 281-285): one row per day and type
present in the month, with the number of events of that day and type. -/
def queryDailyCounts (q : String) (t : Table) : List DayRow :=
  let rows := monthRows q t
  let groups := (rows.map fun r => (strftimeMd r.Date, r.NotificationTypeID)).dedup
  let sorted := groups.insertionSort (fun a b => groupLe a b = true)
  sorted.map fun g =>
    ⟨g.1, g.2, rows.countP (fun r => decide (strftimeMd r.Date = g.1 ∧ r.NotificationTypeID = g.2))⟩

/-- A Go `map[string]int`: its entries, one per key. -/
abbrev GoMap := List (String × Nat)

/-- Go `m[k] = v`. -/
def GoMap.set (m : GoMap) (k : String) (v : Nat) : GoMap :=
  if m.any (fun e => decide (e.1 = k)) then m.map (fun e => if e.1 = k then (k, v) else e)
  else m ++ [(k, v)]

/-- Go `m[k]`, zero for an absent key. -/
def GoMap.get (m : GoMap) (k : String) : Nat :=
  match m.find? (fun e => decide (e.1 = k)) with
  | some e => e.2
  | none => 0

/-- The keys of a map. -/
def GoMap.keys (m : GoMap) : List String := m.map Prod.fst

/-- Go `len(m)`. -/
def GoMap.len (m : GoMap) : Nat := m.length

/-- A sequence of keys is one that `range m` may produce: every key once, in
any order. -/
def GoMap.RangeOrder (m : GoMap) (ks : List String) : Prop := ks.Perm m.keys

instance (m : GoMap) (ks : List String) : Decidable (m.RangeOrder ks) := by
  unfold GoMap.RangeOrder; infer_instance

/-- One iteration of the loop over the grouped rows (lines 307-323): both maps
get `0` for the row's day, then the map of the row's type gets the count. -/
def countStep (acc : GoMap × GoMap) (row : DayRow) : GoMap × GoMap :=
  let joinMap := acc.1.set row.day 0
  let leaveMap := acc.2.set row.day 0
  let leaveMap := if row.notificationTypeID = 21 then leaveMap.set row.day row.count else leaveMap
  let joinMap := if row.notificationTypeID = 128 then joinMap.set row.day row.count else joinMap
  (joinMap, leaveMap)

/-- The loop over the grouped rows: `(joinMap, leaveMap)`. -/
def buildMaps (rows : List DayRow) : GoMap × GoMap :=
  rows.foldl countStep ([], [])

/-- The struct `ChartData`, before `json.Marshal` (which keeps the order of a
slice). -/
structure ChartData where
  Categories : List String
  Join : List Nat
  Leave : List Nat
deriving DecidableEq

/-- Lines 325-339: three slices of length `len(joinMap)`; the first `range`
(over `joinMap`, visiting its keys in `joinOrder`) fills `joinData` and
`categories`, the second (over `leaveMap`, visiting in `leaveOrder`) fills
`leaveData`, each writing at its own running index. -/
def chartData (joinOrder leaveOrder : List String) (joinMap leaveMap : GoMap) : ChartData :=
  let categories := List.replicate joinMap.len ""
  let joinData := List.replicate joinMap.len 0
  let leaveData := List.replicate joinMap.len 0
  let first := joinOrder.foldl
    (fun (st : List String × List Nat × Nat) k =>
      (st.1.set st.2.2 k, st.2.1.set st.2.2 (joinMap.get k), st.2.2 + 1))
    (categories, joinData, 0)
  let second := leaveOrder.foldl
    (fun (st : List Nat × Nat) k => (st.1.set st.2 (leaveMap.get k), st.2 + 1))
    (leaveData, 0)
  ⟨first.1, first.2.1, second.1⟩

/-- The local struct `Char` of `getStats`. -/
structure getStats.Char where
  CharID : Int
  CharName : String
  EventDate : Time
deriving DecidableEq

/-- The local struct `TmplData` of `getStats`, the value handed to the
template. -/
structure TmplData where
  Title : String
  Joins : List getStats.Char
  Leaves : List getStats.Char
  Date : String
  JoinCount : Nat
  LeaveCount : Nat
  ChartData : ChartData
deriving DecidableEq

/-- The function `getStats` up to the rendering of the template. `path` is
`r.URL.Path[1:]`, `now` is `time.Now().UTC().Format("2006-01")`, `joinOrder`
and `leaveOrder` are the orders in which the two `range` loops visit their
maps. -/
def getStats (now path : String) (joinOrder leaveOrder : List String) (t : Table) : TmplData :=
  let q := if path.length ≤ 0 then now else path
  let rows := monthRows q t
  let leaves := (rows.filter (fun r => decide (r.NotificationTypeID = 21))).map
    fun r => (⟨r.CharID, r.SenderName, r.Date⟩ : getStats.Char)
  let joins := (rows.filter (fun r => decide (r.NotificationTypeID = 128))).map
    fun r => (⟨r.CharID, r.SenderName, r.Date⟩ : getStats.Char)
  let maps := buildMaps (queryDailyCounts q t)
  ⟨"Member Stats", joins, leaves, q, joins.length, leaves.length,
    chartData joinOrder leaveOrder maps.1 maps.2⟩

/-! ## Auxiliary notions used in the statements -/

/-- Rows of a table whose identifier is none of the given ones. -/
def keepOthers (ids : List Int) (t : Table) : Table :=
  t.filter (fun r => decide (r.NotificationID ∉ ids))

/-- The feed row an event was made from. -/
def MadeFrom (e : InsertData) (v : Notifications) : Prop :=
  (v.TypeID = 21 ∨ v.TypeID = 128) ∧ e.NotificationTypeID = v.TypeID
    ∧ e.NotificationID = v.NotificationID ∧ e.CharID = v.SenderID
    ∧ e.SenderName = v.SenderName

/-- An event is a join or a leave. -/
def IsJoinOrLeave (e : InsertData) : Prop :=
  e.NotificationTypeID = 21 ∨ e.NotificationTypeID = 128

instance (e : InsertData) : Decidable (IsJoinOrLeave e) := by
  unfold IsJoinOrLeave; infer_instance

/-- Number of stored events of one type on one day (`MM-DD`) of the month `q`
(`YYYY-MM`), counted on the table itself. -/
def eventsOn (q day : String) (kind : Int) (t : Table) : Nat :=
  t.countP (fun r => decide (strftimeYm r.Date = q ∧ strftimeMd r.Date = day
    ∧ r.NotificationTypeID = kind))

/-- Day labels in ascending order. -/
def Ascending : List String → Bool
  | [] => true
  | [_] => true
  | a :: b :: rest => dayLt a b && Ascending (b :: rest)

/-! ## Sample data -/

/-- A join and a leave on the same day, 5 March 2024. -/
def sameDayTable : Table :=
  [⟨7, ⟨2024, 3, 5, 10, 0, 0⟩, 1001, 128, "Alice"⟩, ⟨8, ⟨2024, 3, 5, 12, 0, 0⟩, 1002, 21, "Bob"⟩]

/-- The scenario of the specification: a join on 5 March and a leave on 6 March
2024. -/
def twoDayTable : Table :=
  [⟨7, ⟨2024, 3, 5, 10, 0, 0⟩, 1001, 128, "Alice"⟩, ⟨8, ⟨2024, 3, 6, 12, 0, 0⟩, 1002, 21, "Bob"⟩]

/-- A feed whose first row has a sent date that does not parse. -/
def badDateFeed : List Notifications :=
  [⟨1001, 128, 7, "Alice", "not a date", 0⟩, ⟨1002, 21, 8, "Bob", "2024-03-06 12:00:00", 0⟩]

/-- A feed with a join, a row of another type, and a leave. -/
def mixedFeed : List Notifications :=
  [⟨1001, 128, 7, "Alice", "2024-03-05 10:00:00", 0⟩, ⟨1003, 5, 9, "Carol", "2024-03-05 11:00:00", 1⟩,
    ⟨1002, 21, 8, "Bob", "2024-03-06 12:00:00", 0⟩]

/-! ## Lemmas on the table -/

theorem insertOrReplace_nil (v : InsertData) : insertOrReplace [] v = [v] := by
  simp [insertOrReplace]

theorem storeData_cons (e : InsertData) (evs : List InsertData) (t : Table) :
    storeData (e :: evs) t = storeData evs (insertOrReplace t e) := by
  simp [storeData]

theorem storeData_append (xs ys : List InsertData) (t : Table) :
    storeData (xs ++ ys) t = storeData ys (storeData xs t) := by
  simp [storeData]

theorem keepOthers_insertOrReplace (ids : List Int) (t : Table) (e : InsertData) :
    keepOthers ids (insertOrReplace t e)
      = keepOthers (e.NotificationID :: ids) t ++ keepOthers ids [e] := by
  unfold keepOthers insertOrReplace
  rw [List.filter_append, List.filter_filter]
  congr 1
  apply List.filter_congr
  intro r _
  simp only [List.mem_cons, not_or, ne_eq, Bool.decide_and, Bool.and_comm]

/-- A batch leaves the rows it does not mention in place and puts behind them
what the same batch leaves in an empty table. -/
theorem storeData_split (evs : List InsertData) (t : Table) :
    storeData evs t
      = keepOthers (evs.map (fun e => e.NotificationID)) t ++ storeData evs [] := by
  induction evs generalizing t with
  | nil => simp [storeData, keepOthers]
  | cons e evs ih =>
    rw [storeData_cons, storeData_cons, ih (insertOrReplace t e), ih (insertOrReplace [] e),
      insertOrReplace_nil, keepOthers_insertOrReplace, List.map_cons, List.append_assoc]

theorem mem_insertOrReplace {t : Table} {v r : InsertData} (h : r ∈ insertOrReplace t v) :
    r ∈ t ∨ r = v := by
  unfold insertOrReplace at h
  rcases List.mem_append.mp h with h | h
  · exact Or.inl (List.mem_filter.mp h).1
  · exact Or.inr (by simpa using h)

theorem mem_storeData {evs : List InsertData} {t : Table} {r : InsertData}
    (h : r ∈ storeData evs t) : r ∈ t ∨ r ∈ evs := by
  induction evs generalizing t with
  | nil => exact Or.inl (by simpa [storeData] using h)
  | cons e evs ih =>
    rw [storeData_cons] at h
    rcases ih h with h | h
    · rcases mem_insertOrReplace h with h | h
      · exact Or.inl h
      · exact Or.inr (by simp [h])
    · exact Or.inr (List.mem_cons_of_mem _ h)

theorem keepOthers_storeData_nil (evs : List InsertData) :
    keepOthers (evs.map (fun e => e.NotificationID)) (storeData evs []) = [] := by
  unfold keepOthers
  rw [List.filter_eq_nil_iff]
  intro r hr
  rcases mem_storeData hr with h | h
  · simp at h
  · simp only [List.mem_map, decide_not, Bool.not_eq_true', decide_eq_false_iff_not, not_not]
    exact ⟨r, h, rfl⟩

theorem keepOthers_idem (ids : List Int) (t : Table) :
    keepOthers ids (keepOthers ids t) = keepOthers ids t := by
  unfold keepOthers
  rw [List.filter_filter]
  simp

/-- Replaying a batch changes nothing. -/
theorem storeData_replay (evs : List InsertData) (t : Table) :
    storeData evs (storeData evs t) = storeData evs t := by
  rw [storeData_split evs (storeData evs t)]
  conv_lhs => rw [storeData_split evs t]
  unfold keepOthers
  rw [List.filter_append]
  have h1 := keepOthers_storeData_nil evs
  have h2 := keepOthers_idem (evs.map (fun e => e.NotificationID)) t
  unfold keepOthers at h1 h2
  rw [h1, h2, List.append_nil]
  exact (storeData_split evs t).symm

/-! ## Lemmas on the collecting loop -/

theorem mem_collectStep {parse : String → Option Time} {acc : List LogLine × List InsertData}
    {v : Notifications} {e : InsertData} (h : e ∈ (collectStep parse acc v).2) :
    e ∈ acc.2 ∨ MadeFrom e v := by
  unfold collectStep at h
  split at h
  · rename_i hk
    split at h
    · rcases List.mem_append.mp h with h | h
      · exact Or.inl h
      · simp only [List.mem_singleton] at h
        subst h
        exact Or.inr ⟨hk, rfl, rfl, rfl, rfl⟩
    · rcases List.mem_append.mp h with h | h
      · exact Or.inl h
      · simp only [List.mem_singleton] at h
        subst h
        exact Or.inr ⟨hk, rfl, rfl, rfl, rfl⟩
  · exact Or.inl h

theorem mem_foldl_collectStep {parse : String → Option Time} {rows : List Notifications}
    {acc : List LogLine × List InsertData} {e : InsertData}
    (h : e ∈ (rows.foldl (collectStep parse) acc).2) :
    e ∈ acc.2 ∨ ∃ v ∈ rows, MadeFrom e v := by
  induction rows generalizing acc with
  | nil => exact Or.inl (by simpa using h)
  | cons v rows ih =>
    rw [List.foldl_cons] at h
    rcases ih h with h | ⟨w, hw, hm⟩
    · rcases mem_collectStep h with h | h
      · exact Or.inl h
      · exact Or.inr ⟨v, List.mem_cons_self _ _, h⟩
    · exact Or.inr ⟨w, List.mem_cons_of_mem _ hw, hm⟩

theorem mem_collectEvents {parse : String → Option Time}
    {rows : List Notifications} {e : InsertData}
    (h : e ∈ (collectEvents parse rows).2) : ∃ v ∈ rows, MadeFrom e v := by
  unfold collectEvents at h
  rcases mem_foldl_collectStep h with h | h
  · simp at h
  · exact h

/-- With a response of status 200 and no error from `client.Do`, the table
left behind is that of the filter, map and store step on the rows the decoder
filled in, whether or not the decoder failed. -/
theorem getNotifications_table_of_200 (parse : String → Option Time) (res : Response)
    (t : Table) (h : res.StatusCode = 200) :
    ∃ log, getNotifications parse ⟨some res, false⟩ t
      = Outcome.returned log (ingest parse res.decodedRows t) := by
  unfold getNotifications ingest
  simp [h]

/-! ## Lemmas on the maps and the chart slices -/

theorem find_replaced (k : String) (v : Nat) (m : GoMap) (h : ∃ e ∈ m, e.1 = k) :
    (m.map (fun e => if e.1 = k then (k, v) else e)).find? (fun e => decide (e.1 = k))
      = some (k, v) := by
  induction m with
  | nil => simp at h
  | cons e m ih =>
    by_cases he : e.1 = k
    · simp [he]
    · have hm : ∃ e ∈ m, e.1 = k := by
        obtain ⟨x, hx, hk⟩ := h
        rcases List.mem_cons.mp hx with rfl | hx
        · exact absurd hk he
        · exact ⟨x, hx, hk⟩
      rw [List.map_cons, if_neg he, List.find?_cons_of_neg _ (by simpa using he)]
      exact ih hm

theorem find_appended (k : String) (v : Nat) (m : GoMap) (h : ∀ e ∈ m, e.1 ≠ k) :
    (m ++ [(k, v)]).find? (fun e => decide (e.1 = k)) = some (k, v) := by
  induction m with
  | nil => simp
  | cons e m ih =>
    have he : e.1 ≠ k := h e (List.mem_cons_self _ _)
    rw [List.cons_append, List.find?_cons_of_neg _ (by simpa using he)]
    exact ih (fun x hx => h x (List.mem_cons_of_mem _ hx))

theorem GoMap.get_set_self (m : GoMap) (k : String) (v : Nat) : (m.set k v).get k = v := by
  unfold GoMap.set GoMap.get
  by_cases hm : m.any (fun e => decide (e.1 = k)) = true
  · have hyes : ∃ e ∈ m, e.1 = k := by
      obtain ⟨e, he, hk⟩ := List.any_eq_true.mp hm
      exact ⟨e, he, by simpa using hk⟩
    rw [if_pos hm, find_replaced k v m hyes]
  · have hno : ∀ e ∈ m, e.1 ≠ k := by
      intro e he hk
      exact hm (List.any_eq_true.mpr ⟨e, he, by simpa using hk⟩)
    rw [if_neg hm, find_appended k v m hno]

/-- Two rows of one day, a leave row and then a join row: the second row zeroes
the leave count written by the first. -/
theorem countStep_leave_then_join (acc : GoMap × GoMap) (d : String) (c1 c2 : Nat) :
    (countStep (countStep acc ⟨d, 21, c1⟩) ⟨d, 128, c2⟩).1.get d = c2
    ∧ (countStep (countStep acc ⟨d, 21, c1⟩) ⟨d, 128, c2⟩).2.get d = 0 := by
  simp [countStep, GoMap.get_set_self]

/-- Two rows of one day, a join row and then a leave row: the second row zeroes
the join count written by the first. -/
theorem countStep_join_then_leave (acc : GoMap × GoMap) (d : String) (c1 c2 : Nat) :
    (countStep (countStep acc ⟨d, 128, c1⟩) ⟨d, 21, c2⟩).1.get d = 0
    ∧ (countStep (countStep acc ⟨d, 128, c1⟩) ⟨d, 21, c2⟩).2.get d = c2 := by
  simp [countStep, GoMap.get_set_self]

theorem fill_pair {α : Type} (f : String → α) (ks : List String) (pre rest : List α)
    (h : ks.length ≤ rest.length) :
    ks.foldl (fun (st : List α × Nat) k => (st.1.set st.2 (f k), st.2 + 1))
        (pre ++ rest, pre.length)
      = (pre ++ ks.map f ++ rest.drop ks.length, pre.length + ks.length) := by
  induction ks generalizing pre rest with
  | nil => simp
  | cons k ks ih =>
    cases rest with
    | nil => simp at h
    | cons x rest =>
      have h2 : ks.length ≤ rest.length := by simpa using h
      have hs : (pre ++ x :: rest).set pre.length (f k) = (pre ++ [f k]) ++ rest := by
        rw [List.set_append_right _ _ (Nat.le_refl _)]
        simp
      have hl : pre.length + 1 = (pre ++ [f k]).length := by simp
      rw [List.foldl_cons]
      simp only [hs]
      rw [hl, ih (pre ++ [f k]) rest h2]
      simp [Nat.add_comm, Nat.add_left_comm]

theorem fill_triple (g : String → Nat) (ks : List String) (pc rc : List String)
    (pj rj : List Nat) (n : Nat) (hc : pc.length = n) (hj : pj.length = n)
    (h1 : ks.length ≤ rc.length) (h2 : ks.length ≤ rj.length) :
    ks.foldl (fun (st : List String × List Nat × Nat) k =>
          (st.1.set st.2.2 k, st.2.1.set st.2.2 (g k), st.2.2 + 1))
        (pc ++ rc, pj ++ rj, n)
      = (pc ++ ks ++ rc.drop ks.length, pj ++ ks.map g ++ rj.drop ks.length,
          n + ks.length) := by
  induction ks generalizing pc rc pj rj n with
  | nil => simp
  | cons k ks ih =>
    cases rc with
    | nil => simp at h1
    | cons x rc =>
      cases rj with
      | nil => simp at h2
      | cons y rj =>
        have h1r : ks.length ≤ rc.length := by simpa using h1
        have h2r : ks.length ≤ rj.length := by simpa using h2
        have hsc : (pc ++ x :: rc).set n k = (pc ++ [k]) ++ rc := by
          rw [List.set_append_right _ _ (by omega)]
          simp [hc]
        have hsj : (pj ++ y :: rj).set n (g k) = (pj ++ [g k]) ++ rj := by
          rw [List.set_append_right _ _ (by omega)]
          simp [hj]
        rw [List.foldl_cons]
        simp only [hsc, hsj]
        rw [ih (pc ++ [k]) rc (pj ++ [g k]) rj (n + 1) (by simp [hc]) (by simp [hj]) h1r h2r]
        simp [Nat.add_comm, Nat.add_left_comm]

/-- The part of the chart that always holds: the three slices have the length
of `joinMap`; `categories` lists the keys in the order the first `range`
visited them with `joinData` aligned to it; `leaveData` lists the leave values
in the order the second `range` visited its keys, not in the order of
`categories`. -/
theorem chartData_shape (joinOrder leaveOrder : List String) (joinMap leaveMap : GoMap)
    (hj : joinOrder.length = joinMap.len) (hl : leaveOrder.length = joinMap.len) :
    (chartData joinOrder leaveOrder joinMap leaveMap).Categories = joinOrder
    ∧ (chartData joinOrder leaveOrder joinMap leaveMap).Join = joinOrder.map joinMap.get
    ∧ (chartData joinOrder leaveOrder joinMap leaveMap).Leave = leaveOrder.map leaveMap.get := by
  unfold chartData
  have ht := fill_triple joinMap.get joinOrder [] (List.replicate joinMap.len "")
    [] (List.replicate joinMap.len 0) 0 rfl rfl (by simp [hj]) (by simp [hj])
  have hp := fill_pair leaveMap.get leaveOrder [] (List.replicate joinMap.len 0)
    (by simp [hl])
  simp only [List.nil_append, List.length_nil] at ht hp
  simp only [ht, hp]
  simp [hj, hl]

/-! ## The claims -/

/-- Claim C4. `storeData` is an upsert keyed by the notification identifier:
for every table and every two events with the same `NotificationID`, storing
the first and then the second (in two calls, or equally in one batch) leaves
exactly one row with that identifier, the second event itself, so with the
second name; the rows with other identifiers are the same as before, in the
same order. -/
theorem storeData_upsert_by_id (t : Table) (a b : InsertData)
    (hid : a.NotificationID = b.NotificationID) :
    (storeData [b] (storeData [a] t)).filter
        (fun r => decide (r.NotificationID = b.NotificationID)) = [b]
    ∧ (storeData [b] (storeData [a] t)).filter
        (fun r => decide (r.NotificationID ≠ b.NotificationID))
      = t.filter (fun r => decide (r.NotificationID ≠ b.NotificationID))
    ∧ storeData [a, b] t = storeData [b] (storeData [a] t) := by
  refine ⟨?_, ?_, rfl⟩
  · simp [storeData, insertOrReplace, List.filter_append, List.filter_filter, hid]
  · simp [storeData, insertOrReplace, List.filter_append, List.filter_filter, hid]

/-- Witness for C4: the same identifier 1001 stored first as Alice, then as
Alicia, in a table that already holds another row. -/
theorem storeData_upsert_by_id_witness :
    (storeData [⟨7, ⟨2024, 3, 5, 10, 0, 0⟩, 1001, 128, "Alicia"⟩]
        (storeData [⟨7, ⟨2024, 3, 5, 10, 0, 0⟩, 1001, 128, "Alice"⟩] twoDayTable)).filter
        (fun r => decide (r.NotificationID = 1001))
      = [⟨7, ⟨2024, 3, 5, 10, 0, 0⟩, 1001, 128, "Alicia"⟩] :=
  (storeData_upsert_by_id twoDayTable ⟨7, ⟨2024, 3, 5, 10, 0, 0⟩, 1001, 128, "Alice"⟩
    ⟨7, ⟨2024, 3, 5, 10, 0, 0⟩, 1001, 128, "Alicia"⟩ rfl).1

/-- Claim C5. Ingestion is idempotent under replay: for every table and every
decoded feed (also one that repeats an identifier), running the filter, map and
store step twice with the same feed gives the same table as running it once; so
the number of rows, and everything `getStats` reports (the join and leave
counts among it), are those of the first run. -/
theorem ingest_replay (parse : String → Option Time) (rows : List Notifications) (t : Table) :
    ingest parse rows (ingest parse rows t) = ingest parse rows t
    ∧ (ingest parse rows (ingest parse rows t)).length = (ingest parse rows t).length
    ∧ ∀ (now path : String) (joinOrder leaveOrder : List String),
        getStats now path joinOrder leaveOrder (ingest parse rows (ingest parse rows t))
          = getStats now path joinOrder leaveOrder (ingest parse rows t) := by
  have h : ingest parse rows (ingest parse rows t) = ingest parse rows t := by
    unfold ingest
    exact storeData_replay _ t
  refine ⟨h, ?_, ?_⟩
  · rw [h]
  · intro now path joinOrder leaveOrder
    rw [h]

/-- Claim C7. Ingestion only persists joins and leaves: every event that the
loop of `getNotifications` collects for `storeData` has type 21 or 128 and was
made from a feed row of that type and identifier; and if every row of the table
is a join or a leave before a poll cycle that returns, so is every row after
it. -/
theorem getNotifications_keeps_kinds (parse : String → Option Time) (r : DoResult)
    (t t' : Table) (log : List LogLine)
    (hinv : ∀ row ∈ t, IsJoinOrLeave row)
    (hret : getNotifications parse r t = Outcome.returned log t') :
    (∀ rows : List Notifications, ∀ e ∈ (collectEvents parse rows).2,
        IsJoinOrLeave e ∧ ∃ v ∈ rows, MadeFrom e v)
    ∧ ∀ row ∈ t', IsJoinOrLeave row := by
  have hev : ∀ rows : List Notifications, ∀ e ∈ (collectEvents parse rows).2,
      IsJoinOrLeave e ∧ ∃ v ∈ rows, MadeFrom e v := by
    intro rows e he
    obtain ⟨v, hv, hm⟩ := mem_collectEvents he
    refine ⟨?_, v, hv, hm⟩
    unfold IsJoinOrLeave
    rw [hm.2.1]
    exact hm.1
  refine ⟨hev, ?_⟩
  intro row hrow
  unfold getNotifications at hret
  split at hret
  · cases hret
  · rename_i res _
    split at hret
    · cases hret; exact hinv row hrow
    · split at hret
      · cases hret; exact hinv row hrow
      · cases hret
        rcases mem_storeData hrow with h | h
        · exact hinv row h
        · exact (hev _ row h).1

/-- Witness for C7: a poll that returns a join, a row of type 5 and a leave,
run on a table holding one join; the poll returns, and the row it stored for
the leave is a leave. -/
theorem getNotifications_keeps_kinds_witness :
    getNotifications timeParse ⟨some ⟨200, mixedFeed, false⟩, false⟩
        [⟨6, ⟨2024, 2, 1, 8, 0, 0⟩, 900, 128, "Zed"⟩]
      = Outcome.returned []
          [⟨6, ⟨2024, 2, 1, 8, 0, 0⟩, 900, 128, "Zed"⟩,
            ⟨7, ⟨2024, 3, 5, 10, 0, 0⟩, 1001, 128, "Alice"⟩,
            ⟨8, ⟨2024, 3, 6, 12, 0, 0⟩, 1002, 21, "Bob"⟩]
    ∧ IsJoinOrLeave ⟨8, ⟨2024, 3, 6, 12, 0, 0⟩, 1002, 21, "Bob"⟩ :=
  ⟨by decide,
    (getNotifications_keeps_kinds timeParse ⟨some ⟨200, mixedFeed, false⟩, false⟩
      [⟨6, ⟨2024, 2, 1, 8, 0, 0⟩, 900, 128, "Zed"⟩]
      [⟨6, ⟨2024, 2, 1, 8, 0, 0⟩, 900, 128, "Zed"⟩,
        ⟨7, ⟨2024, 3, 5, 10, 0, 0⟩, 1001, 128, "Alice"⟩,
        ⟨8, ⟨2024, 3, 6, 12, 0, 0⟩, 1002, 21, "Bob"⟩]
      [] (by decide) (by decide)).2 ⟨8, ⟨2024, 3, 6, 12, 0, 0⟩, 1002, 21, "Bob"⟩ (by decide)⟩

/-- Claim C9. For every response of `client.Do` whose status code is not 200
(503 for one), whatever rows its body holds, `getNotifications` returns with
the table exactly as it was, hence with the same number of rows; when
`client.Do` gave no error the one line logged is the status line. -/
theorem getNotifications_non200 (parse : String → Option Time) (r : DoResult) (res : Response)
    (t : Table) (hres : r.res = some res) (hstatus : res.StatusCode ≠ 200) :
    (∃ log, getNotifications parse r t = Outcome.returned log t)
    ∧ (r.err = false →
        getNotifications parse r t = Outcome.returned [LogLine.non200 res.StatusCode] t) := by
  unfold getNotifications
  rw [hres]
  cases herr : r.err
  · simp [hstatus]
  · simp

/-- Witness for C9: a 503 response whose body holds rows that would otherwise
be stored. -/
theorem getNotifications_non200_witness :
    getNotifications timeParse ⟨some ⟨503, mixedFeed, false⟩, false⟩ twoDayTable
      = Outcome.returned [LogLine.non200 503] twoDayTable :=
  (getNotifications_non200 timeParse ⟨some ⟨503, mixedFeed, false⟩, false⟩
    ⟨503, mixedFeed, false⟩ twoDayTable rfl (by decide)).2 rfl

/-- Claim C1, evaluated on a day with a join and a leave. The table holds one
join and one leave on 5 March 2024; the grouped query gives the two rows
`("03-05", 21, 1)` and `("03-05", 128, 1)`; the loop of `getStats` zeroes both
maps again at the second row, so it ends with join 1 and leave 0 for `03-05`,
while the table holds one leave on that day. With the two rows in the other
order it is the join count that is lost. -/
theorem getStats_same_day_join_and_leave :
    queryDailyCounts "2024-03" sameDayTable = [⟨"03-05", 21, 1⟩, ⟨"03-05", 128, 1⟩]
    ∧ buildMaps (queryDailyCounts "2024-03" sameDayTable) = ([("03-05", 1)], [("03-05", 0)])
    ∧ eventsOn "2024-03" "03-05" 128 sameDayTable = 1
    ∧ eventsOn "2024-03" "03-05" 21 sameDayTable = 1
    ∧ buildMaps [⟨"03-05", 128, 1⟩, ⟨"03-05", 21, 1⟩] = ([("03-05", 0)], [("03-05", 1)]) := by
  decide

/-- Claim C2, evaluated on the scenario of the specification. The maps built
for the join of 5 March and the leave of 6 March are
`joinMap = {03-05: 1, 03-06: 0}` and `leaveMap = {03-05: 0, 03-06: 1}`. When the
first `range` visits `03-05, 03-06` and the second visits `03-06, 03-05` (both
are orders a `range` may take), the three slices have length 2 but
`leaveData[0] = 1` stands under `categories[0] = "03-05"`, a day whose leave
value is 0. -/
theorem getStats_leave_series_misaligned :
    buildMaps (queryDailyCounts "2024-03" twoDayTable)
      = ([("03-05", 1), ("03-06", 0)], [("03-05", 0), ("03-06", 1)])
    ∧ GoMap.RangeOrder (buildMaps (queryDailyCounts "2024-03" twoDayTable)).1 ["03-05", "03-06"]
    ∧ GoMap.RangeOrder (buildMaps (queryDailyCounts "2024-03" twoDayTable)).2 ["03-06", "03-05"]
    ∧ (getStats "2024-11" "2024-03" ["03-05", "03-06"] ["03-06", "03-05"] twoDayTable).ChartData
      = ⟨["03-05", "03-06"], [1, 0], [1, 0]⟩
    ∧ (buildMaps (queryDailyCounts "2024-03" twoDayTable)).2.get "03-05" = 0
    ∧ eventsOn "2024-03" "03-05" 21 twoDayTable = 0 := by
  decide

/-- Claim C3, evaluated on the scenario of the specification. When the `range`
over `joinMap` visits `03-06` before `03-05` (an order a `range` may take), the
categories handed to the chart are `["03-06", "03-05"]`: each day once, but not
ascending, although the query returned its rows in ascending day order. -/
theorem getStats_categories_not_ascending :
    (queryDailyCounts "2024-03" twoDayTable).map (fun row => row.day) = ["03-05", "03-06"]
    ∧ GoMap.RangeOrder (buildMaps (queryDailyCounts "2024-03" twoDayTable)).1 ["03-06", "03-05"]
    ∧ GoMap.RangeOrder (buildMaps (queryDailyCounts "2024-03" twoDayTable)).2 ["03-06", "03-05"]
    ∧ (getStats "2024-11" "2024-03" ["03-06", "03-05"] ["03-06", "03-05"]
        twoDayTable).ChartData.Categories = ["03-06", "03-05"]
    ∧ Ascending ["03-06", "03-05"] = false
    ∧ Ascending ["03-05", "03-06"] = true := by
  decide

/-- Claim C6, evaluated on a batch whose first row (identifier 1001, type 128)
has the sent date `not a date`. `time.Parse` fails on it, the error is logged,
and the row is stored all the same, dated with the zero time
`0001-01-01 00:00:00`; the other row of the batch is stored as well. -/
theorem getNotifications_stores_unparsable_date :
    timeParse "not a date" = none
    ∧ getNotifications timeParse ⟨some ⟨200, badDateFeed, false⟩, false⟩ []
      = Outcome.returned [LogLine.parseTimeError]
          [⟨7, Time.zero, 1001, 128, "Alice"⟩, ⟨8, ⟨2024, 3, 6, 12, 0, 0⟩, 1002, 21, "Bob"⟩] := by
  decide

/-- Claim C8, evaluated on a response whose body breaks off after two rows.
The decoder has filled in the rows it read and returns an error; the error is
logged, the function goes on, and the join and the leave decoded before the
failure are written to the table. -/
theorem getNotifications_stores_after_decode_error :
    getNotifications timeParse ⟨some ⟨200, mixedFeed, true⟩, false⟩ []
      = Outcome.returned [LogLine.decodeError]
          [⟨7, ⟨2024, 3, 5, 10, 0, 0⟩, 1001, 128, "Alice"⟩,
            ⟨8, ⟨2024, 3, 6, 12, 0, 0⟩, 1002, 21, "Bob"⟩] := by
  decide

/-- Claim C10, evaluated on a transport failure. When `client.Do` returns an
error and a nil response, `defer res.Body.Close()` is reached before the error
is looked at and dereferences the nil response: the call panics, whatever the
table holds, and nothing is logged. -/
theorem getNotifications_transport_error_panics (parse : String → Option Time) (t : Table) :
    getNotifications parse ⟨none, true⟩ t = Outcome.panicked := by
  rfl

end MemberTracking
